import Mathlib

/-!
# cloudflare-ddns-client: a shallow embedding of `main.go`

The program is one control loop with two outbound HTTP calls and one piece of
state (`previousIP`).  The embedding keeps the Go functions as pure Lean
functions of the things they read from the outside world:

* `Config`   the three package variables read from the environment;
* `Lib`      what the Go standard library decides for us (`url.Parse` inside
             `http.NewRequest`, and `json.Unmarshal`);
* `Net`      what `client.Do` answers to a request.

Go strings are modelled as Lean `String`s (sequences of Unicode code points),
that is, as Go strings that hold valid UTF-8; the body of the update request is
modelled as bytes as well, where a Go string can hold any bytes.
A Go run-time panic (nil pointer dereference) is an explicit outcome
`Run.panic`, distinct from a returned `error` value, which is `Option String`
(`none` is Go's `nil`).
-/

namespace DDNS

/-! ## Data model -/

/-- Package variables `APIKey`, `Zone`, `RecordName` (main.go lines 15-17). -/
structure Config where
  APIKey : String
  Zone : String
  RecordName : String
  deriving DecidableEq, Repr

/-- An `*http.Request` as far as the program builds one. -/
structure Request where
  Method : String
  URL : String
  Header : List (String × String)
  Body : Option String
  deriving DecidableEq, Repr

/-- An `*http.Response` as far as the program reads one.  `Body` is the outcome
of `ioutil.ReadAll(resp.Body)`: the bytes read, or the read error. -/
structure Response where
  Status : String
  StatusCode : Int
  Body : Except String String

/-- One entry of `DNSRecords.Result` (main.go lines 60-79); `RecType` is the Go
field `Type`, and the two time stamps are kept as text. -/
structure Record where
  ID : String
  RecType : String
  Name : String
  Content : String
  Proxiable : Bool
  Proxied : Bool
  TTL : Int
  Locked : Bool
  ZoneID : String
  ZoneName : String
  CreatedOn : String
  ModifiedOn : String
  MetaAutoAdded : Bool
  MetaSource : String
  deriving DecidableEq, Repr

/-- DNSRecords holds the result of Cloudflare's DNS record listing
(main.go lines 56-80). -/
structure DNSRecords where
  Success : Bool
  Errors : List String
  Messages : List String
  Result : List Record
  deriving DecidableEq, Repr

/-- Behaviour of the Go standard library that the program relies on and does
not implement itself. -/
structure Lib where
  /-- The error of `url.Parse` on a raw URL, as met inside `http.NewRequest`. -/
  urlError : String → Option String
  /-- The call `json.Unmarshal(s, &recs)` on a zero `recs`: the contents of `recs`
  afterwards, and the returned error. -/
  Unmarshal : String → DNSRecords × Option String

/-- The network as seen through `client.Do`: the response pointer (`none` is
`nil`) and the error. -/
structure Net where
  Do : Request → Option Response × Option String

/-- Outcome of running a Go function: it returns, or the goroutine panics. -/
inductive Run (α : Type) where
  | ret (a : α)
  | panic (msg : String)
  deriving DecidableEq, Repr

/-- The message of Go's nil pointer dereference panic. -/
def nilDeref : String :=
  "runtime error: invalid memory address or nil pointer dereference"

/-- The constant `http.StatusOK`. -/
def StatusOK : Int := 200

/-- The duration `1 * time.Minute`, in nanoseconds. -/
def Minute : Nat := 60 * 1000000000

/-! ## Provider HTTP client -/

/-- The call `http.NewRequest(method, url, body)` with a valid method: fails
exactly when the URL does not parse. -/
def NewRequest (lib : Lib) (method url : String) (body : Option String) :
    Except String Request :=
  match lib.urlError url with
  | some e => .error e
  | none => .ok { Method := method, URL := url, Header := [], Body := body }

/-- The method `Header.Set`: replaces any value stored under the key. -/
def headerSet (h : List (String × String)) (k v : String) : List (String × String) :=
  h.filter (fun kv => kv.1 != k) ++ [(k, v)]

/-- Function `setHeaders` (main.go lines 82-85). -/
def setHeaders (cfg : Config) (req : Request) : Request :=
  let h1 := headerSet req.Header "Authorization" ("Bearer " ++ cfg.APIKey)
  let h2 := headerSet h1 "Content-Type" "application/json"
  { req with Header := h2 }

/-- The URL built at main.go line 97. -/
def recordsURL (cfg : Config) : String :=
  "https://api.cloudflare.com/client/v4/zones/" ++ cfg.Zone ++
    "/dns_records?type=A&name=" ++ cfg.RecordName

/-- The request that `getRecordID` sends (main.go lines 98-103). -/
def recordsRequest (cfg : Config) : Request :=
  setHeaders cfg { Method := "GET", URL := recordsURL cfg, Header := [], Body := none }

/-- Function `getRecordID` (main.go lines 95-118): gets the record ID of a DNS
record based on the record name.  Returns the pair `(string, error)`. -/
def getRecordID (cfg : Config) (lib : Lib) (net : Net) : Run (String × Option String) :=
  let url := recordsURL cfg
  match NewRequest lib "GET" url none with
  | .error e => .ret ("", some ("cannot create request: " ++ e))
  | .ok req =>
    let req := setHeaders cfg req
    -- line 103: the error of client.Do is overwritten on line 104, never read
    match (net.Do req).1 with
    | none => .panic nilDeref            -- line 104: resp.Body on a nil resp
    | some resp =>
      match resp.Body with
      | .error e => .ret ("", some e)
      | .ok s =>
        if resp.StatusCode ≠ StatusOK then
          .ret ("", some ("cloudflare returned non-OK status: " ++ resp.Status))
        else
          -- line 112: the error of json.Unmarshal is never read
          let recs := (lib.Unmarshal s).1
          match recs.Result with
          | [] => .ret ("", some ("cannot find record: " ++ cfg.RecordName))
          | r :: _ => .ret (r.ID, none)

/-- The request body built at main.go line 123. -/
def setIPBody (RecordName ip : String) : String :=
  "\x7b\"type\":\"A\",\"name\":\"" ++ RecordName ++ "\",\"content\":\"" ++ ip ++
    "\",\"ttl\":120,\"proxied\":false\x7d"

/-- The URL built at main.go line 124. -/
def updateURL (cfg : Config) (recID : String) : String :=
  "https://api.cloudflare.com/client/v4/zones/" ++ cfg.Zone ++ "/dns_records/" ++ recID

/-- The request that `setIP` sends (main.go lines 123-130). -/
def updateRequest (cfg : Config) (ip recID : String) : Request :=
  setHeaders cfg
    { Method := "PUT", URL := updateURL cfg recID, Header := [],
      Body := some (setIPBody cfg.RecordName ip) }

/-- Function `setIP` (main.go lines 121-135): sets the IP address based on
record ID.  Returns the `error`. -/
def setIP (cfg : Config) (lib : Lib) (net : Net) (ip recID : String) : Run (Option String) :=
  let body := setIPBody cfg.RecordName ip
  let url := updateURL cfg recID
  match NewRequest lib "PUT" url (some body) with
  | .error e => .ret (some ("cannot create request: " ++ e))
  | .ok req =>
    let req := setHeaders cfg req
    -- line 130: the error of client.Do is never read
    match (net.Do req).1 with
    | none => .panic nilDeref            -- line 131: resp.StatusCode on a nil resp
    | some resp =>
      if resp.StatusCode ≠ StatusOK then
        .ret (some ("cloudflare returned non-OK status: " ++ resp.Status))
      else
        .ret none

/-! ## Public IP lookup -/

/-- The predicate `unicode.IsSpace`: the Unicode White_Space property. -/
def isSpace (c : Char) : Bool :=
  let n := c.toNat
  (0x09 ≤ n && n ≤ 0x0d) || n == 0x20 || n == 0x85 || n == 0xa0 || n == 0x1680 ||
    (0x2000 ≤ n && n ≤ 0x200a) || n == 0x2028 || n == 0x2029 || n == 0x202f ||
    n == 0x205f || n == 0x3000

/-- The function `strings.TrimSpace` on the code points of a string: all leading
and trailing white space removed. -/
def trimSpaceChars (l : List Char) : List Char :=
  (l.dropWhile isSpace).rdropWhile isSpace

/-- The function `strings.TrimSpace`. -/
def TrimSpace (s : String) : String :=
  String.mk (trimSpaceChars s.data)

/-- The request that `getIP` sends (main.go line 140).  The method and the URL
are constants that `http.NewRequest` accepts, so the request is never nil. -/
def ipRequest : Request :=
  { Method := "GET", URL := "https://icanhazip.com", Header := [], Body := none }

/-- Function `getIP` (main.go lines 138-150): returns the public IP address, as
the pair `(string, error)`. -/
def getIP (net : Net) : Run (String × Option String) :=
  match net.Do ipRequest with
  | (_, some e) => .ret ("", some e)
  | (none, none) => .panic nilDeref      -- line 145: resp.Body on a nil resp
  | (some resp, none) =>
    match resp.Body with
    | .error e => .ret ("", some e)
    | .ok s => .ret (TrimSpace s, none)

/-! ## The update loop -/

/-- Observable effects of `main`, in program order. -/
inductive Event where
  /-- A line written by `log.Printf` or `log.Println`. -/
  | log (line : String)
  /-- The call `getRecordID()` and how it ended. -/
  | getRecordID (out : Run (String × Option String))
  /-- The call `getIP()` and how it ended. -/
  | getIP (out : Run (String × Option String))
  /-- The call `setIP(ip, recID)` and how it ended. -/
  | setIP (ip recID : String) (out : Run (Option String))
  /-- The call `time.Sleep(d)`, `d` in nanoseconds. -/
  | sleep (d : Nat)
  /-- The call `os.Exit(code)`. -/
  | exit (code : Int)
  deriving DecidableEq, Repr

/-- One pass through the body of the `for` loop (main.go lines 36-51), started
with the given `previousIP` against the network as it is during that pass.
Returns the effects and the value of `previousIP` afterwards; `none` when the
pass ended in a panic, which ends the process. -/
def loopBody (cfg : Config) (lib : Lib) (recID previousIP : String) (net : Net) :
    List Event × Option String :=
  match getIP net with
  | .panic m => ([.getIP (.panic m)], none)
  | .ret (ip, err) =>
    if err = none then
      if previousIP = ip then
        ([.getIP (.ret (ip, err)), .log "No change to public IP", .sleep (1 * Minute)],
          some previousIP)
      else
        match setIP cfg lib net ip recID with
        | .panic m =>
          ([.getIP (.ret (ip, err)), .log ("Current public IP: " ++ ip),
            .setIP ip recID (.panic m)], none)
        | .ret (some e) =>
          ([.getIP (.ret (ip, err)), .log ("Current public IP: " ++ ip),
            .setIP ip recID (.ret (some e)), .log ("Error setting IP: " ++ e),
            .sleep (1 * Minute)], some previousIP)
        | .ret none =>
          ([.getIP (.ret (ip, err)), .log ("Current public IP: " ++ ip),
            .setIP ip recID (.ret none), .log "Updated!", .sleep (1 * Minute)], some ip)
    else
      ([.getIP (.ret (ip, err)), .sleep (1 * Minute)], some previousIP)

/-- The `for` loop of `main` (lines 35-52) over a finite prefix of passes, one
network behaviour per pass.  Returns the effects of each executed pass and the
final `previousIP`; the run stops early at a panic. -/
def runLoop (cfg : Config) (lib : Lib) (recID : String) :
    String → List Net → List (List Event) × String
  | previousIP, [] => ([], previousIP)
  | previousIP, net :: nets =>
    match loopBody cfg lib recID previousIP net with
    | (evs, none) => ([evs], previousIP)
    | (evs, some p) =>
      let r := runLoop cfg lib recID p nets
      (evs :: r.1, r.2)

/-- Function `main` (main.go lines 28-53), observed over the start-up exchange
and a finite prefix of loop passes.  `previousIP` starts as the zero value of
a Go string, the empty string (line 25). -/
def main (cfg : Config) (lib : Lib) (startNet : Net) (nets : List Net) : List Event :=
  let out := getRecordID cfg lib startNet
  .log ("Getting the ID of the record (" ++ cfg.Zone ++ ")") :: .getRecordID out ::
    match out with
    | .panic _ => []
    | .ret (_, some _) => [.exit (-1)]
    | .ret (recID, none) =>
      .log ("Got record ID: " ++ recID) :: (runLoop cfg lib recID "" nets).1.flatten

/-! ## Observers on traces -/

/-- Whether an effect is a call of `setIP`. -/
def isSetIPCall : Event → Bool
  | .setIP _ _ _ => true
  | _ => false

/-- Whether a trace contains a call of `setIP`. -/
def callsSetIP (evs : List Event) : Bool :=
  evs.any isSetIPCall

/-- The content of the most recent `setIP` call of a trace that returned `nil`;
`init` when the trace has none. -/
def lastApplied (init : String) (evs : List Event) : String :=
  evs.foldl (fun acc e =>
    match e with
    | .setIP ip _ (.ret none) => ip
    | _ => acc) init

/-- The IP returned by the most recent successful `getIP` call of a trace;
`init` when the trace has none. -/
def lastFetched (init : String) (evs : List Event) : String :=
  evs.foldl (fun acc e =>
    match e with
    | .getIP (.ret (ip, none)) => ip
    | _ => acc) init

/-! ## JSON decoding of the update body -/

/-- A JSON value, for the values that a flat object of strings, natural
numbers, booleans and nulls can hold. -/
inductive JSONValue where
  | str (s : String)
  | num (n : Nat)
  | bool (b : Bool)
  | null
  deriving DecidableEq, Repr

/-- Position inside a JSON string literal: between characters, right after a
backslash, or inside the four hexadecimal digits of a `\u` escape; and the
same three positions while a high surrogate `hi`, read from a `\u` escape,
waits for the low surrogate that completes its pair. -/
inductive StrMode where
  | plain
  | esc
  | hex (seen acc : Nat)
  | high (hi : Nat)
  | highEsc (hi : Nat)
  | highHex (hi seen acc : Nat)
  deriving DecidableEq, Repr

/-- The value of a hexadecimal digit. -/
def hexDigit (c : Char) : Option Nat :=
  let n := c.toNat
  if 48 ≤ n ∧ n ≤ 57 then some (n - 48)
  else if 97 ≤ n ∧ n ≤ 102 then some (n - 87)
  else if 65 ≤ n ∧ n ≤ 70 then some (n - 55)
  else none

/-- The character that a one-letter escape stands for (RFC 8259, section 7). -/
def unescape (c : Char) : Option Char :=
  if c = '"' then some '"'
  else if c = '\\' then some '\\'
  else if c = '/' then some '/'
  else if c = 'b' then some (Char.ofNat 8)
  else if c = 'f' then some (Char.ofNat 12)
  else if c = 'n' then some '\n'
  else if c = 'r' then some '\r'
  else if c = 't' then some '\t'
  else none

/-- The Unicode replacement character U+FFFD. -/
def replacementChar : Char := Char.ofNat 0xfffd

/-- Whether a `\u` value is a high (leading) surrogate. -/
def isHighSurrogate (n : Nat) : Bool :=
  decide (0xd800 ≤ n ∧ n ≤ 0xdbff)

/-- Whether a `\u` value is a low (trailing) surrogate. -/
def isLowSurrogate (n : Nat) : Bool :=
  decide (0xdc00 ≤ n ∧ n ≤ 0xdfff)

/-- The code point that a surrogate pair stands for (RFC 8259, section 7). -/
def surrogatePair (hi lo : Nat) : Char :=
  Char.ofNat (0x10000 + (hi - 0xd800) * 0x400 + (lo - 0xdc00))

/-- The character of a `\u` escape that is not the first half of a pair: its
code point, or the replacement character for a surrogate left unpaired. -/
def escapedChar (n : Nat) : Char :=
  if 0xd800 ≤ n ∧ n ≤ 0xdfff then replacementChar else Char.ofNat n

/-- Puts a decoded character in front of the rest of a decoded literal. -/
def consChar (c : Char) : Option (List Char × List Char) → Option (List Char × List Char)
  | some (s, r) => some (c :: s, r)
  | none => none

/-- Decodes a JSON string literal from just after its opening quote: the decoded
characters and the input left after the closing quote.  A raw quote ends the
literal, a backslash starts an escape, a raw control character is an error.
Two `\u` escapes that form a surrogate pair decode to one code point; a
surrogate without its partner decodes to U+FFFD and what follows it is read
afresh, as Go's `encoding/json` does. -/
def decodeString : StrMode → List Char → Option (List Char × List Char)
  | _, [] => none
  | .plain, c :: cs =>
    if c = '"' then some ([], cs)
    else if c = '\\' then decodeString .esc cs
    else if c.toNat < 0x20 then none
    else consChar c (decodeString .plain cs)
  | .esc, c :: cs =>
    if c = 'u' then decodeString (.hex 0 0) cs
    else
      match unescape c with
      | some x => consChar x (decodeString .plain cs)
      | none => none
  | .hex seen acc, c :: cs =>
    match hexDigit c with
    | none => none
    | some d =>
      if seen = 3 then
        if isHighSurrogate (16 * acc + d) then decodeString (.high (16 * acc + d)) cs
        else consChar (escapedChar (16 * acc + d)) (decodeString .plain cs)
      else decodeString (.hex (seen + 1) (16 * acc + d)) cs
  | .high hi, c :: cs =>
    if c = '"' then some ([replacementChar], cs)
    else if c = '\\' then decodeString (.highEsc hi) cs
    else if c.toNat < 0x20 then none
    else consChar replacementChar (consChar c (decodeString .plain cs))
  | .highEsc hi, c :: cs =>
    if c = 'u' then decodeString (.highHex hi 0 0) cs
    else
      match unescape c with
      | some x => consChar replacementChar (consChar x (decodeString .plain cs))
      | none => none
  | .highHex hi seen acc, c :: cs =>
    match hexDigit c with
    | none => none
    | some d =>
      if seen = 3 then
        if isLowSurrogate (16 * acc + d) then
          consChar (surrogatePair hi (16 * acc + d)) (decodeString .plain cs)
        else if isHighSurrogate (16 * acc + d) then
          consChar replacementChar (decodeString (.high (16 * acc + d)) cs)
        else
          consChar replacementChar (consChar (Char.ofNat (16 * acc + d)) (decodeString .plain cs))
      else decodeString (.highHex hi (seen + 1) (16 * acc + d)) cs

/-- JSON white space between tokens. -/
def isJSONSpace (c : Char) : Bool :=
  c = ' ' || c = '\t' || c = '\n' || c = '\r'

/-- Drops the white space in front of the next token. -/
def skipWs (cs : List Char) : List Char :=
  cs.dropWhile isJSONSpace

/-- The number written by a run of decimal digits. -/
def digitsValue (ds : List Char) : Nat :=
  ds.foldl (fun n c => 10 * n + (c.toNat - 48)) 0

/-- Parses one value: a string literal, `true`, `false`, `null`, or a natural
number without a leading zero.  Returns the value and the input left. -/
def parseValue (cs : List Char) : Option (JSONValue × List Char) :=
  match cs with
  | [] => none
  | c :: r =>
    if c = '"' then
      match decodeString .plain r with
      | some (s, r1) => some (.str (String.mk s), r1)
      | none => none
    else if cs.take 4 = ['t', 'r', 'u', 'e'] then some (.bool true, cs.drop 4)
    else if cs.take 5 = ['f', 'a', 'l', 's', 'e'] then some (.bool false, cs.drop 5)
    else if cs.take 4 = ['n', 'u', 'l', 'l'] then some (.null, cs.drop 4)
    else
      let ds := cs.takeWhile Char.isDigit
      if ds = [] ∨ (1 < ds.length ∧ ds.head? = some '0') then none
      else some (.num (digitsValue ds), cs.dropWhile Char.isDigit)

/-- Parses the members of an object, from just after the opening brace or a
comma up to the closing brace: the fields in order and the input left.  The
fuel bounds the number of members. -/
def parseMembers : Nat → List Char → Option (List (String × JSONValue) × List Char)
  | 0, _ => none
  | fuel + 1, cs =>
    match skipWs cs with
    | [] => none
    | q :: r =>
      if q = '"' then
        match decodeString .plain r with
        | none => none
        | some (k, r1) =>
          match skipWs r1 with
          | [] => none
          | col :: r2 =>
            if col = ':' then
              match parseValue (skipWs r2) with
              | none => none
              | some (v, r3) =>
                match skipWs r3 with
                | [] => none
                | sep :: r4 =>
                  if sep = ',' then
                    match parseMembers fuel r4 with
                    | some (ms, r5) => some ((String.mk k, v) :: ms, r5)
                    | none => none
                  else if sep = '}' then some ([(String.mk k, v)], r4)
                  else none
            else none
      else none

/-- Decodes a text as a flat JSON object: its fields in order, or `none` when
the text is not such an object.  A member takes at least one character, so the
length of the text is fuel enough. -/
def parseObject (s : String) : Option (List (String × JSONValue)) :=
  match skipWs s.data with
  | [] => none
  | c :: r =>
    if c = '{' then
      match skipWs r with
      | [] => none
      | c1 :: r1 =>
        if c1 = '}' then (if skipWs r1 = [] then some [] else none)
        else
          match parseMembers s.length r with
          | some (ms, r2) => if skipWs r2 = [] then some ms else none
          | none => none
    else none

/-- A character that stands for itself inside a JSON string literal. -/
def plainChar (c : Char) : Bool :=
  c != '"' && c != '\\' && decide (0x20 ≤ c.toNat)

/-! ## Go strings as bytes -/

/-- The lowest second byte that `utf8.DecodeRune` accepts after the first byte
`p0` of a multi-byte encoding (the table `acceptRanges`). -/
def acceptLo (p0 : Nat) : Nat :=
  if p0 = 0xe0 then 0xa0 else if p0 = 0xf0 then 0x90 else 0x80

/-- The highest second byte that `utf8.DecodeRune` accepts after the first byte
`p0` of a multi-byte encoding (the table `acceptRanges`). -/
def acceptHi (p0 : Nat) : Nat :=
  if p0 = 0xed then 0x9f else if p0 = 0xf4 then 0x8f else 0xbf

/-- The function `utf8.DecodeRune` on the bytes at the front of a Go string: the
rune and its width in bytes; `(U+FFFD, 1)` when the bytes do not start with a
valid UTF-8 encoding, `(U+FFFD, 0)` when there are none. -/
def DecodeRune (p : List Nat) : Nat × Nat :=
  match p with
  | [] => (0xfffd, 0)
  | p0 :: t =>
    if p0 < 0x80 then (p0, 1)
    else if p0 < 0xc2 then (0xfffd, 1)
    else if p0 < 0xe0 then
      match t with
      | b1 :: _ =>
        if 0x80 ≤ b1 ∧ b1 ≤ 0xbf then (p0 % 32 * 64 + b1 % 64, 2) else (0xfffd, 1)
      | _ => (0xfffd, 1)
    else if p0 < 0xf0 then
      match t with
      | b1 :: b2 :: _ =>
        if acceptLo p0 ≤ b1 ∧ b1 ≤ acceptHi p0 ∧ 0x80 ≤ b2 ∧ b2 ≤ 0xbf then
          (p0 % 16 * 4096 + b1 % 64 * 64 + b2 % 64, 3)
        else (0xfffd, 1)
      | _ => (0xfffd, 1)
    else if p0 < 0xf5 then
      match t with
      | b1 :: b2 :: b3 :: _ =>
        if acceptLo p0 ≤ b1 ∧ b1 ≤ acceptHi p0 ∧ 0x80 ≤ b2 ∧ b2 ≤ 0xbf ∧
            0x80 ≤ b3 ∧ b3 ≤ 0xbf then
          (p0 % 8 * 262144 + b1 % 64 * 4096 + b2 % 64 * 64 + b3 % 64, 4)
        else (0xfffd, 1)
      | _ => (0xfffd, 1)
    else (0xfffd, 1)

/-- The function `utf8.EncodeRune`: the UTF-8 bytes of a rune, those of U+FFFD
for a surrogate or a value past U+10FFFF. -/
def EncodeRune (r : Nat) : List Nat :=
  if r < 0x80 then [r]
  else if r < 0x800 then [0xc0 + r / 64, 0x80 + r % 64]
  else if (0xd800 ≤ r ∧ r ≤ 0xdfff) ∨ 0x10ffff < r then [0xef, 0xbf, 0xbd]
  else if r < 0x10000 then [0xe0 + r / 4096, 0x80 + r / 64 % 64, 0x80 + r % 64]
  else [0xf0 + r / 262144, 0x80 + r / 4096 % 64, 0x80 + r / 64 % 64, 0x80 + r % 64]

/-- The bytes of a Go string that holds the given text. -/
def goBytes (s : String) : List Nat :=
  s.data.flatMap (fun c => EncodeRune c.toNat)

/-- The runes of a Go string read front to back with `utf8.DecodeRune`, as
`encoding/json` reads a text: every byte that starts no valid encoding gives
one U+FFFD.  `skip` counts the bytes still to pass of the rune just read. -/
def runesOfBytes : Nat → List Nat → List Char
  | _, [] => []
  | skip + 1, _ :: t => runesOfBytes skip t
  | 0, p0 :: t =>
    Char.ofNat (DecodeRune (p0 :: t)).1 :: runesOfBytes ((DecodeRune (p0 :: t)).2 - 1) t

/-- The request body built at main.go line 123, as the bytes of the Go string:
the bytes of the three literals around those of `RecordName` and `ip`. -/
def setIPBodyBytes (RecordName ip : List Nat) : List Nat :=
  goBytes "\x7b\"type\":\"A\",\"name\":\"" ++ RecordName ++ goBytes "\",\"content\":\"" ++ ip ++
    goBytes "\",\"ttl\":120,\"proxied\":false\x7d"

/-- Decodes the bytes of a Go string as a flat JSON object, reading the runes
as `encoding/json` does. -/
def parseObjectBytes (body : List Nat) : Option (List (String × JSONValue)) :=
  parseObject (String.mk (runesOfBytes 0 body))

/-! ## Sample worlds -/

/-- A library in which every URL parses and every body decodes to the given
record list. -/
def sampleLib (recs : List Record) : Lib :=
  { urlError := fun _ => none
    Unmarshal := fun _ =>
      ({ Success := true, Errors := [], Messages := [], Result := recs }, none) }

/-- A network in which the IP lookup answers 200 with `ipBody`, and the provider
answers every request with the given status and body. -/
def sampleNet (ipBody : String) (code : Int) (status body : String) : Net :=
  { Do := fun req =>
      if req = ipRequest then
        (some { Status := "200 OK", StatusCode := 200, Body := .ok ipBody }, none)
      else
        (some { Status := status, StatusCode := code, Body := .ok body }, none) }

/-- A network on which no request can be sent: `client.Do` returns a nil
response and an error. -/
def downNet : Net :=
  { Do := fun _ => (none, some "dial tcp: lookup failed: no such host") }

/-- A network in which the IP lookup answers 200 with `ipBody`, and no request
to the provider can be sent: for those `client.Do` returns a nil response and
an error. -/
def providerDownNet (ipBody : String) : Net :=
  { Do := fun req =>
      if req = ipRequest then
        (some { Status := "200 OK", StatusCode := 200, Body := .ok ipBody }, none)
      else
        (none, some "dial tcp: lookup failed: no such host") }

/-- A sample configuration. -/
def sampleCfg : Config :=
  { APIKey := "k", Zone := "z", RecordName := "home.example.com" }

/-- A record with the given identifier and every other field zero. -/
def recordWithID (id : String) : Record :=
  { ID := id, RecType := "", Name := "", Content := "", Proxiable := false,
    Proxied := false, TTL := 0, Locked := false, ZoneID := "", ZoneName := "",
    CreatedOn := "", ModifiedOn := "", MetaAutoAdded := false, MetaSource := "" }

/-! ## The update loop: change detection -/

theorem lastApplied_append (init : String) (xs ys : List Event) :
    lastApplied init (xs ++ ys) = lastApplied (lastApplied init xs) ys := by
  simp [lastApplied, List.foldl_append]

/-- A pass that does not panic leaves in `previousIP` the content of the last
successful `setIP` call so far. -/
theorem loopBody_lastApplied (cfg : Config) (lib : Lib) (recID prev : String) (net : Net)
    (evs : List Event) (p : String)
    (h : loopBody cfg lib recID prev net = (evs, some p)) :
    lastApplied prev evs = p := by
  unfold loopBody at h
  split at h
  · simp at h
  · rename_i ip err hget
    split at h
    · split at h
      · simp only [Prod.mk.injEq, Option.some.injEq] at h
        obtain ⟨h1, h2⟩ := h
        subst h1 h2
        simp [lastApplied]
      · split at h
        · simp at h
        · simp only [Prod.mk.injEq, Option.some.injEq] at h
          obtain ⟨h1, h2⟩ := h
          subst h1 h2
          simp [lastApplied]
        · simp only [Prod.mk.injEq, Option.some.injEq] at h
          obtain ⟨h1, h2⟩ := h
          subst h1 h2
          simp [lastApplied]
    · simp only [Prod.mk.injEq, Option.some.injEq] at h
      obtain ⟨h1, h2⟩ := h
      subst h1 h2
      rcases err with _ | e
      · simp at *
      · simp [lastApplied]

/-- A pass whose fetch succeeds calls `setIP` exactly when the fetched IP differs
from `previousIP`. -/
theorem loopBody_calls_iff (cfg : Config) (lib : Lib) (recID prev : String) (net : Net)
    (ip : String) (hget : getIP net = .ret (ip, none)) :
    callsSetIP (loopBody cfg lib recID prev net).1 = true ↔ ip ≠ prev := by
  unfold loopBody
  rw [hget]
  by_cases hp : prev = ip
  · subst hp
    simp [callsSetIP, isSetIPCall]
  · have hp' : ip ≠ prev := fun h => hp h.symm
    simp only [if_true, if_neg hp]
    cases hs : setIP cfg lib net ip recID with
    | panic m => simp [callsSetIP, isSetIPCall, hp']
    | ret r =>
      cases r with
      | none => simp [callsSetIP, isSetIPCall, hp']
      | some e => simp [callsSetIP, isSetIPCall, hp']

theorem runLoop_calls_iff (cfg : Config) (lib : Lib) (recID : String) :
    ∀ (nets : List Net) (prev : String) (k : Nat) (net : Net) (evs : List Event) (ip : String),
      nets[k]? = some net →
      (runLoop cfg lib recID prev nets).1[k]? = some evs →
      getIP net = .ret (ip, none) →
      (callsSetIP evs = true ↔
        ip ≠ lastApplied prev ((runLoop cfg lib recID prev nets).1.take k).flatten) := by
  intro nets
  induction nets with
  | nil => intro prev k net evs ip h; simp at h
  | cons n ns ih =>
    intro prev k net evs ip hn he hget
    cases hb : loopBody cfg lib recID prev n with
    | mk evs0 o =>
      cases k with
      | zero =>
        simp only [List.getElem?_cons_zero, Option.some.injEq] at hn
        subst hn
        have hevs : evs = evs0 := by
          cases o with
          | none => simpa [runLoop, hb] using he.symm
          | some p => simpa [runLoop, hb] using he.symm
        subst hevs
        have := loopBody_calls_iff cfg lib recID prev n ip hget
        rw [hb] at this
        simpa [lastApplied] using this
      | succ k =>
        cases o with
        | none => simp [runLoop, hb] at he
        | some p =>
          simp only [List.getElem?_cons_succ] at hn
          simp only [runLoop, hb, List.getElem?_cons_succ] at he
          have hinv := loopBody_lastApplied cfg lib recID prev n evs0 p hb
          have := ih p k net evs ip hn he hget
          simp only [runLoop, hb, List.take_succ_cons, List.flatten_cons, lastApplied_append,
            hinv]
          exact this

/-- C1: over every finite run of the loop started with `previousIP` empty, a pass
whose fetch succeeds calls `setIP` if and only if the fetched IP differs from
the content of the most recent earlier `setIP` call that returned nil (the
empty string when there is none).  The criterion is not "differs from the last
fetched IP": in the run of the second part the second pass fetches the IP that
the first pass fetched, and still calls `setIP`. -/
theorem update_iff_differs_from_last_applied :
    (∀ (cfg : Config) (lib : Lib) (recID : String) (nets : List Net) (k : Nat) (net : Net)
        (evs : List Event) (ip : String),
        nets[k]? = some net →
        (runLoop cfg lib recID "" nets).1[k]? = some evs →
        getIP net = .ret (ip, none) →
        (callsSetIP evs = true ↔
          ip ≠ lastApplied "" ((runLoop cfg lib recID "" nets).1.take k).flatten)) ∧
    (∃ (nets : List Net) (net : Net) (evs : List Event) (ip : String),
        nets[1]? = some net ∧
        (runLoop sampleCfg (sampleLib []) "r" "" nets).1[1]? = some evs ∧
        getIP net = .ret (ip, none) ∧
        ip = lastFetched "" ((runLoop sampleCfg (sampleLib []) "r" "" nets).1.take 1).flatten ∧
        callsSetIP evs = true) := by
  refine ⟨fun cfg lib recID nets k net evs ip hn he hget =>
    runLoop_calls_iff cfg lib recID nets "" k net evs ip hn he hget, ?_⟩
  refine ⟨[sampleNet "203.0.113.5\n" 403 "403 Forbidden" "",
      sampleNet "203.0.113.5\n" 200 "200 OK" ""],
    sampleNet "203.0.113.5\n" 200 "200 OK" "",
    (loopBody sampleCfg (sampleLib []) "r" "" (sampleNet "203.0.113.5\n" 200 "200 OK" "")).1,
    "203.0.113.5", rfl, ?_, ?_, ?_, ?_⟩
  · decide
  · decide
  · decide
  · decide

/-- C1, at a run of three passes: the IP is fetched and applied, a new IP is
fetched and the update is refused, the new IP is fetched again.  The third pass
calls `setIP`, since the new IP differs from the last applied one. -/
theorem update_iff_differs_from_last_applied_witness :
    [sampleNet "203.0.113.5\n" 200 "200 OK" "", sampleNet "203.0.113.9\n" 403 "403 Forbidden" "",
        sampleNet "203.0.113.9\n" 200 "200 OK" ""][2]? =
      some (sampleNet "203.0.113.9\n" 200 "200 OK" "") ∧
    (runLoop sampleCfg (sampleLib []) "r" ""
        [sampleNet "203.0.113.5\n" 200 "200 OK" "", sampleNet "203.0.113.9\n" 403 "403 Forbidden" "",
          sampleNet "203.0.113.9\n" 200 "200 OK" ""]).1[2]? =
      some (loopBody sampleCfg (sampleLib []) "r" "203.0.113.5"
        (sampleNet "203.0.113.9\n" 200 "200 OK" "")).1 ∧
    getIP (sampleNet "203.0.113.9\n" 200 "200 OK" "") = .ret ("203.0.113.9", none) ∧
    (callsSetIP (loopBody sampleCfg (sampleLib []) "r" "203.0.113.5"
        (sampleNet "203.0.113.9\n" 200 "200 OK" "")).1 = true ↔
      "203.0.113.9" ≠ lastApplied "" ((runLoop sampleCfg (sampleLib []) "r" ""
        [sampleNet "203.0.113.5\n" 200 "200 OK" "", sampleNet "203.0.113.9\n" 403 "403 Forbidden" "",
          sampleNet "203.0.113.9\n" 200 "200 OK" ""]).1.take 2).flatten) :=
  ⟨rfl, by decide, by decide,
    update_iff_differs_from_last_applied.1 sampleCfg (sampleLib []) "r" _ 2 _ _ "203.0.113.9"
      rfl (by decide) (by decide)⟩

/-- When the fetched IP differs from `previousIP` and the `setIP` call of the
pass returns an error value, `previousIP` is the same after the pass as before
it, and a next pass that fetches the same IP calls `setIP` again with that IP
and the same record identifier. -/
theorem failed_update_keeps_previousIP_and_retries (cfg : Config) (lib : Lib)
    (recID prev : String) (net : Net) (ip e : String)
    (hget : getIP net = .ret (ip, none)) (hne : ip ≠ prev)
    (hfail : setIP cfg lib net ip recID = .ret (some e)) :
    ∃ p, (loopBody cfg lib recID prev net).2 = some p ∧ p = prev ∧
      ∀ next : Net, getIP next = .ret (ip, none) →
        Event.setIP ip recID (setIP cfg lib next ip recID) ∈
          (loopBody cfg lib recID p next).1 := by
  have hp : ¬ prev = ip := fun h => hne h.symm
  refine ⟨prev, ?_, rfl, ?_⟩
  · simp [loopBody, hget, hp, hfail]
  · intro next hnext
    unfold loopBody
    rw [hnext]
    simp only [if_true, if_neg hp]
    cases hs : setIP cfg lib next ip recID with
    | panic m => simp
    | ret r =>
      cases r with
      | none => simp
      | some e' => simp

/-- C2 fails on the code: when the update fails because the request cannot be
sent (`client.Do` returns a nil response and an error), `setIP` panics instead
of returning an error, the pass ends there without the sleep, and the loop
stops: `previousIP` is lost with the process, and the next pass, in which the
same IP would be fetched and the provider would accept it, never runs. -/
theorem failed_update_by_transport_stops_loop :
    getIP (providerDownNet "203.0.113.9\n") = .ret ("203.0.113.9", none) ∧
    "203.0.113.9" ≠ "203.0.113.5" ∧
    setIP sampleCfg (sampleLib []) (providerDownNet "203.0.113.9\n") "203.0.113.9" "r" =
      .panic nilDeref ∧
    loopBody sampleCfg (sampleLib []) "r" "203.0.113.5" (providerDownNet "203.0.113.9\n") =
      ([.getIP (.ret ("203.0.113.9", none)), .log "Current public IP: 203.0.113.9",
        .setIP "203.0.113.9" "r" (.panic nilDeref)], none) ∧
    (runLoop sampleCfg (sampleLib []) "r" "203.0.113.5"
        [providerDownNet "203.0.113.9\n", sampleNet "203.0.113.9\n" 200 "200 OK" ""]).1 =
      [[.getIP (.ret ("203.0.113.9", none)), .log "Current public IP: 203.0.113.9",
        .setIP "203.0.113.9" "r" (.panic nilDeref)]] := by
  refine ⟨?_, ?_, ?_, ?_, ?_⟩ <;> decide

/-- The returned-error case at a provider that answers 403: the update of
"203.0.113.9" over the applied "203.0.113.5" is refused. -/
theorem failed_update_keeps_previousIP_and_retries_witness :
    getIP (sampleNet "203.0.113.9\n" 403 "403 Forbidden" "") = .ret ("203.0.113.9", none) ∧
    "203.0.113.9" ≠ "203.0.113.5" ∧
    setIP sampleCfg (sampleLib []) (sampleNet "203.0.113.9\n" 403 "403 Forbidden" "")
        "203.0.113.9" "r" =
      .ret (some "cloudflare returned non-OK status: 403 Forbidden") ∧
    ∃ p, (loopBody sampleCfg (sampleLib []) "r" "203.0.113.5"
        (sampleNet "203.0.113.9\n" 403 "403 Forbidden" "")).2 = some p ∧ p = "203.0.113.5" ∧
      ∀ next : Net, getIP next = .ret ("203.0.113.9", none) →
        Event.setIP "203.0.113.9" "r" (setIP sampleCfg (sampleLib []) next "203.0.113.9" "r") ∈
          (loopBody sampleCfg (sampleLib []) "r" p next).1 :=
  ⟨by decide, by decide, by decide,
    failed_update_keeps_previousIP_and_retries sampleCfg (sampleLib []) "r" "203.0.113.5"
      (sampleNet "203.0.113.9\n" 403 "403 Forbidden" "") "203.0.113.9"
      "cloudflare returned non-OK status: 403 Forbidden" (by decide) (by decide) (by decide)⟩

/-- C7 as stated fails: when the first fetch returns the empty string (the
lookup answered with a blank body), `previousIP`, still the empty string,
equals it, and the first pass calls no `setIP`. -/
theorem first_pass_empty_ip_no_update :
    getIP (sampleNet "\n" 200 "200 OK" "") = .ret ("", none) ∧
    (runLoop sampleCfg (sampleLib []) "r" "" [sampleNet "\n" 200 "200 OK" ""]).1 =
      [[.getIP (.ret ("", none)), .log "No change to public IP", .sleep 60000000000]] ∧
    callsSetIP (loopBody sampleCfg (sampleLib []) "r" "" (sampleNet "\n" 200 "200 OK" "")).1 =
      false := by
  refine ⟨?_, ?_, ?_⟩ <;> decide

/-- C7, amended: in the first pass after startup (`previousIP` is the empty
string), for every non-empty IP string that the fetch returns, the pass calls
`setIP` with that IP as content, and when the call returns nil `previousIP`
equals the fetched IP afterwards. -/
theorem first_pass_updates_nonempty_ip (cfg : Config) (lib : Lib) (recID : String)
    (net : Net) (nets : List Net) (ip : String)
    (hget : getIP net = .ret (ip, none)) (hne : ip ≠ "") :
    (runLoop cfg lib recID "" (net :: nets)).1.head? =
      some (loopBody cfg lib recID "" net).1 ∧
    Event.setIP ip recID (setIP cfg lib net ip recID) ∈ (loopBody cfg lib recID "" net).1 ∧
    (setIP cfg lib net ip recID = .ret none →
      (loopBody cfg lib recID "" net).2 = some ip) := by
  have hp : ¬ "" = ip := fun h => hne h.symm
  refine ⟨?_, ?_, ?_⟩
  · cases hb : loopBody cfg lib recID "" net with
    | mk evs o => cases o <;> simp [runLoop, hb]
  · unfold loopBody
    rw [hget]
    simp only [if_true, if_neg hp]
    cases hs : setIP cfg lib net ip recID with
    | panic m => simp
    | ret r =>
      cases r with
      | none => simp
      | some e' => simp
  · intro hs
    simp [loopBody, hget, hp, hs]

/-- C7, at the scenario of the specification: the fetch returns "203.0.113.5"
with `previousIP` empty. -/
theorem first_pass_updates_nonempty_ip_witness :
    getIP (sampleNet "203.0.113.5\n" 200 "200 OK" "") = .ret ("203.0.113.5", none) ∧
    "203.0.113.5" ≠ "" ∧
    (runLoop sampleCfg (sampleLib []) "r" "" [sampleNet "203.0.113.5\n" 200 "200 OK" ""]).1.head? =
      some (loopBody sampleCfg (sampleLib []) "r" "" (sampleNet "203.0.113.5\n" 200 "200 OK" "")).1 ∧
    Event.setIP "203.0.113.5" "r" (setIP sampleCfg (sampleLib [])
        (sampleNet "203.0.113.5\n" 200 "200 OK" "") "203.0.113.5" "r") ∈
      (loopBody sampleCfg (sampleLib []) "r" "" (sampleNet "203.0.113.5\n" 200 "200 OK" "")).1 ∧
    (setIP sampleCfg (sampleLib []) (sampleNet "203.0.113.5\n" 200 "200 OK" "")
        "203.0.113.5" "r" = .ret none →
      (loopBody sampleCfg (sampleLib []) "r" "" (sampleNet "203.0.113.5\n" 200 "200 OK" "")).2 =
        some "203.0.113.5") :=
  ⟨by decide, by decide,
    first_pass_updates_nonempty_ip sampleCfg (sampleLib []) "r"
      (sampleNet "203.0.113.5\n" 200 "200 OK" "") [] "203.0.113.5" (by decide) (by decide)⟩

/-- C9: a pass whose `getIP` returns an error calls no `setIP`, leaves
`previousIP` unchanged, and ends with the one-minute sleep: its whole trace is
the failed fetch followed by `time.Sleep` of 60 seconds. -/
theorem fetch_failure_pass (cfg : Config) (lib : Lib) (recID prev : String) (net : Net)
    (s e : String) (hget : getIP net = .ret (s, some e)) :
    loopBody cfg lib recID prev net =
      ([.getIP (.ret (s, some e)), .sleep 60000000000], some prev) ∧
    callsSetIP (loopBody cfg lib recID prev net).1 = false ∧
    (loopBody cfg lib recID prev net).1.getLast? = some (.sleep 60000000000) := by
  have h : loopBody cfg lib recID prev net =
      ([.getIP (.ret (s, some e)), .sleep 60000000000], some prev) := by
    simp [loopBody, hget, Minute]
  rw [h]
  simp [callsSetIP, isSetIPCall]

/-- C9, at a network on which the lookup cannot be sent. -/
theorem fetch_failure_pass_witness :
    getIP downNet = .ret ("", some "dial tcp: lookup failed: no such host") ∧
    (loopBody sampleCfg (sampleLib []) "r" "203.0.113.5" downNet =
      ([.getIP (.ret ("", some "dial tcp: lookup failed: no such host")),
        .sleep 60000000000], some "203.0.113.5") ∧
    callsSetIP (loopBody sampleCfg (sampleLib []) "r" "203.0.113.5" downNet).1 = false ∧
    (loopBody sampleCfg (sampleLib []) "r" "203.0.113.5" downNet).1.getLast? =
      some (.sleep 60000000000)) :=
  ⟨by decide, fetch_failure_pass sampleCfg (sampleLib []) "r" "203.0.113.5" downNet ""
    "dial tcp: lookup failed: no such host" (by decide)⟩

/-! ## The record resolver -/

/-- C3: for every response with status 200 whose body was read, `getRecordID`
returns the `ID` of the first entry of the decoded result list with a nil error
when the list has an entry, whatever the other entries are, and the empty
identifier with a "cannot find record" error when the list is empty. -/
theorem getRecordID_first_entry (cfg : Config) (lib : Lib) (net : Net) (resp : Response)
    (body : String)
    (hurl : lib.urlError (recordsURL cfg) = none)
    (hdo : (net.Do (recordsRequest cfg)).1 = some resp)
    (hcode : resp.StatusCode = 200) (hbody : resp.Body = .ok body) :
    (∀ (r : Record) (rs : List Record), (lib.Unmarshal body).1.Result = r :: rs →
      getRecordID cfg lib net = .ret (r.ID, none)) ∧
    ((lib.Unmarshal body).1.Result = [] →
      getRecordID cfg lib net = .ret ("", some ("cannot find record: " ++ cfg.RecordName))) := by
  have hreq : NewRequest lib "GET" (recordsURL cfg) none =
      .ok { Method := "GET", URL := recordsURL cfg, Header := [], Body := none } := by
    simp [NewRequest, hurl]
  unfold recordsRequest at hdo
  constructor
  · intro r rs hres
    simp [getRecordID, hreq, hdo, hbody, hcode, StatusOK, hres]
  · intro hres
    simp [getRecordID, hreq, hdo, hbody, hcode, StatusOK, hres]

/-- C3, at the scenario of the specification: the provider lists the single
record with id "abc123". -/
theorem getRecordID_first_entry_witness :
    (sampleLib [recordWithID "abc123"]).urlError (recordsURL sampleCfg) = none ∧
    ((sampleNet "" 200 "200 OK" "{}").Do (recordsRequest sampleCfg)).1 =
      some { Status := "200 OK", StatusCode := 200, Body := .ok "{}" } ∧
    ((∀ (r : Record) (rs : List Record),
        ((sampleLib [recordWithID "abc123"]).Unmarshal "{}").1.Result = r :: rs →
        getRecordID sampleCfg (sampleLib [recordWithID "abc123"]) (sampleNet "" 200 "200 OK" "{}") =
          .ret (r.ID, none)) ∧
      (((sampleLib [recordWithID "abc123"]).Unmarshal "{}").1.Result = [] →
        getRecordID sampleCfg (sampleLib [recordWithID "abc123"]) (sampleNet "" 200 "200 OK" "{}") =
          .ret ("", some ("cannot find record: " ++ sampleCfg.RecordName)))) ∧
    getRecordID sampleCfg (sampleLib [recordWithID "abc123"]) (sampleNet "" 200 "200 OK" "{}") =
      .ret ("abc123", none) :=
  ⟨rfl, rfl,
    getRecordID_first_entry sampleCfg (sampleLib [recordWithID "abc123"])
      (sampleNet "" 200 "200 OK" "{}") { Status := "200 OK", StatusCode := 200, Body := .ok "{}" }
      "{}" rfl rfl rfl rfl,
    by decide⟩

/-- When the response body cannot be read, `getRecordID` returns the read error
and the empty identifier. -/
theorem getRecordID_read_error (cfg : Config) (lib : Lib) (net : Net) (resp : Response)
    (e : String)
    (hurl : lib.urlError (recordsURL cfg) = none)
    (hdo : (net.Do (recordsRequest cfg)).1 = some resp)
    (hbody : resp.Body = .error e) :
    getRecordID cfg lib net = .ret ("", some e) := by
  unfold recordsRequest at hdo
  simp [getRecordID, NewRequest, hurl, hdo, hbody]

/-- When the provider answers with a status other than 200, `getRecordID`
returns an error and the empty identifier. -/
theorem getRecordID_non_ok (cfg : Config) (lib : Lib) (net : Net) (resp : Response)
    (body : String)
    (hurl : lib.urlError (recordsURL cfg) = none)
    (hdo : (net.Do (recordsRequest cfg)).1 = some resp)
    (hbody : resp.Body = .ok body) (hcode : resp.StatusCode ≠ 200) :
    getRecordID cfg lib net =
      .ret ("", some ("cloudflare returned non-OK status: " ++ resp.Status)) := by
  unfold recordsRequest at hdo
  simp [getRecordID, NewRequest, hurl, hdo, hbody, hcode, StatusOK]

/-- When the request cannot be built, `getRecordID` returns an error and the
empty identifier. -/
theorem getRecordID_bad_url (cfg : Config) (lib : Lib) (net : Net) (e : String)
    (hurl : lib.urlError (recordsURL cfg) = some e) :
    getRecordID cfg lib net = .ret ("", some ("cannot create request: " ++ e)) := by
  simp [getRecordID, NewRequest, hurl]

/-- C4 fails on the code: when the request cannot be sent (`client.Do` returns a
nil response and an error), `getRecordID` does not return an error; it reads
`resp.Body` through the nil response and panics. -/
theorem getRecordID_panics_when_request_cannot_be_sent :
    (downNet.Do (recordsRequest sampleCfg)) =
      (none, some "dial tcp: lookup failed: no such host") ∧
    getRecordID sampleCfg (sampleLib []) downNet = .panic nilDeref ∧
    ∀ out : String × Option String, getRecordID sampleCfg (sampleLib []) downNet ≠ .ret out := by
  refine ⟨rfl, by decide, ?_⟩
  intro out h
  have h2 : getRecordID sampleCfg (sampleLib []) downNet = .panic nilDeref := by decide
  rw [h2] at h
  cases h

/-! ## The record update -/

/-- On any network that hands back a response, `setIP` returns nil exactly when
the status code is 200, and an error otherwise. -/
theorem setIP_nil_iff_status_ok (cfg : Config) (lib : Lib) (net : Net) (ip recID : String)
    (resp : Response)
    (hurl : lib.urlError (updateURL cfg recID) = none)
    (hdo : (net.Do (updateRequest cfg ip recID)).1 = some resp) :
    (setIP cfg lib net ip recID = .ret none ↔ resp.StatusCode = 200) ∧
    (resp.StatusCode ≠ 200 → setIP cfg lib net ip recID =
      .ret (some ("cloudflare returned non-OK status: " ++ resp.Status))) := by
  unfold updateRequest at hdo
  by_cases hc : resp.StatusCode = 200
  · simp [setIP, NewRequest, hurl, hdo, hc, StatusOK]
  · simp [setIP, NewRequest, hurl, hdo, hc, StatusOK]

/-- C5 fails on the code: when the request cannot be sent (`client.Do` returns a
nil response and an error), `setIP` does not return an error to the loop; it
reads `resp.StatusCode` through the nil response and panics, and the loop pass
ends there, without the sleep. -/
theorem setIP_panics_when_request_cannot_be_sent :
    (downNet.Do (updateRequest sampleCfg "203.0.113.5" "r")) =
      (none, some "dial tcp: lookup failed: no such host") ∧
    setIP sampleCfg (sampleLib []) downNet "203.0.113.5" "r" = .panic nilDeref ∧
    ∀ err : Option String, setIP sampleCfg (sampleLib []) downNet "203.0.113.5" "r" ≠ .ret err := by
  refine ⟨rfl, by decide, ?_⟩
  intro err h
  have h2 : setIP sampleCfg (sampleLib []) downNet "203.0.113.5" "r" = .panic nilDeref := by
    decide
  rw [h2] at h
  cases h

/-! ## Startup -/

/-- C8 fails on the code: when the list query returns zero results, `main`
exits with status -1 before the loop, with no IP fetch and no update call, but
the only line it has logged is the one printed before the lookup; the error
returned by `getRecordID` is not logged. -/
theorem main_exits_without_logging_error (nets : List Net) :
    getRecordID sampleCfg (sampleLib []) (sampleNet "" 200 "200 OK" "\x7b\"result\":[]\x7d") =
      .ret ("", some "cannot find record: home.example.com") ∧
    main sampleCfg (sampleLib []) (sampleNet "" 200 "200 OK" "\x7b\"result\":[]\x7d") nets =
      [.log "Getting the ID of the record (z)",
        .getRecordID (.ret ("", some "cannot find record: home.example.com")),
        .exit (-1)] := by
  have h : getRecordID sampleCfg (sampleLib []) (sampleNet "" 200 "200 OK" "\x7b\"result\":[]\x7d") =
      .ret ("", some "cannot find record: home.example.com") := by decide
  refine ⟨h, ?_⟩
  unfold main
  rw [h]
  rfl

/-! ## Trimming -/

section Trim

variable {α : Type} (p : α → Bool)

theorem dropWhile_head_not (l : List α) (a : α) (d : List α)
    (h : l.dropWhile p = a :: d) : p a = false := by
  induction l with
  | nil => simp at h
  | cons x xs ih =>
    rw [List.dropWhile_cons] at h
    by_cases hx : p x = true
    · simp only [hx, if_true] at h
      exact ih h
    · simp only [hx] at h
      simp only [Bool.false_eq_true, if_false, List.cons.injEq] at h
      rw [← h.1]
      simpa using hx

theorem rdropWhile_append_of_pos (l w : List α) (hw : ∀ a ∈ w, p a = true) :
    (l ++ w).rdropWhile p = l.rdropWhile p := by
  unfold List.rdropWhile
  rw [List.reverse_append, List.dropWhile_append_of_pos]
  intro a ha
  exact hw a (List.mem_reverse.mp ha)

theorem rdropWhile_cons_of_neg (a : α) (l : List α) (ha : p a = false) :
    (a :: l).rdropWhile p = a :: l.rdropWhile p := by
  unfold List.rdropWhile
  rw [List.reverse_cons, List.dropWhile_append]
  split
  · rename_i hnil
    have : List.dropWhile p l.reverse = [] := by simpa using hnil
    simp [this, ha]
  · simp

theorem rdropWhile_dropWhile_append (l w : List α) (hw : ∀ a ∈ w, p a = true) :
    ((l ++ w).dropWhile p).rdropWhile p = (l.dropWhile p).rdropWhile p := by
  induction l with
  | nil =>
    have : w.dropWhile p = [] := List.dropWhile_eq_nil_iff.mpr (by simpa using hw)
    simp [this]
  | cons x xs ih =>
    by_cases hx : p x = true
    · simpa [List.dropWhile_cons, hx] using ih
    · have hx' : p x = false := by simpa using hx
      simp only [List.cons_append, List.dropWhile_cons, hx', Bool.false_eq_true, if_false]
      rw [← List.cons_append, rdropWhile_append_of_pos p _ _ hw]

theorem trim_pad (w1 c w2 : List α) (h1 : ∀ a ∈ w1, p a = true) (h2 : ∀ a ∈ w2, p a = true) :
    ((w1 ++ c ++ w2).dropWhile p).rdropWhile p = (c.dropWhile p).rdropWhile p := by
  rw [List.append_assoc, List.dropWhile_append_of_pos h1]
  exact rdropWhile_dropWhile_append p c w2 h2

theorem trim_idem (l : List α) :
    (((l.dropWhile p).rdropWhile p).dropWhile p).rdropWhile p = (l.dropWhile p).rdropWhile p := by
  cases hd : l.dropWhile p with
  | nil => simp
  | cons a d =>
    have ha := dropWhile_head_not p l a d hd
    rw [rdropWhile_cons_of_neg p a d ha]
    rw [List.dropWhile_cons_of_neg (by simp [ha])]
    rw [← rdropWhile_cons_of_neg p a d ha]
    exact List.rdropWhile_idempotent p _

theorem trim_head_not (l : List α) (c : α)
    (h : ((l.dropWhile p).rdropWhile p).head? = some c) : p c = false := by
  cases hd : l.dropWhile p with
  | nil => simp [hd] at h
  | cons a d =>
    have ha := dropWhile_head_not p l a d hd
    rw [hd, rdropWhile_cons_of_neg p a d ha] at h
    simp at h
    rw [← h]
    exact ha

theorem trim_last_not (l : List α) (c : α)
    (h : ((l.dropWhile p).rdropWhile p).getLast? = some c) : p c = false := by
  have hne : (l.dropWhile p).rdropWhile p ≠ [] := by
    intro h0
    simp [h0] at h
  have := List.rdropWhile_last_not p (l.dropWhile p) hne
  rw [List.getLast?_eq_getLast _ hne] at h
  simp only [Option.some.injEq] at h
  rw [← h]
  simpa using this

theorem trim_decompose (l : List α) :
    ∃ w1 w2, l = w1 ++ (l.dropWhile p).rdropWhile p ++ w2 ∧
      (∀ a ∈ w1, p a = true) ∧ (∀ a ∈ w2, p a = true) := by
  refine ⟨l.takeWhile p, (l.dropWhile p).rtakeWhile p, ?_, ?_, ?_⟩
  · have h1 : (l.dropWhile p).rdropWhile p ++ (l.dropWhile p).rtakeWhile p = l.dropWhile p := by
      unfold List.rdropWhile List.rtakeWhile
      rw [← List.reverse_append, List.takeWhile_append_dropWhile, List.reverse_reverse]
    rw [List.append_assoc, h1, List.takeWhile_append_dropWhile]
  · intro a ha
    exact List.mem_takeWhile_imp ha
  · intro a ha
    exact List.mem_rtakeWhile_imp ha

end Trim

/-- C10: for every response body of the IP lookup, `getIP` returns the body with
all leading and trailing white space removed: the body is the returned IP
between two runs of white space, the IP neither starts nor ends with white
space, and trimming it again changes nothing.  Two bodies that differ only in
surrounding white space give the same IP, so that after a successful update
from the first, a pass that fetches the second calls no `setIP`. -/
theorem getIP_trims_surrounding_space (net1 net2 : Net) (resp1 resp2 : Response)
    (core w1 w2 w3 w4 : String)
    (h1 : ∀ c ∈ w1.data, isSpace c = true) (h2 : ∀ c ∈ w2.data, isSpace c = true)
    (h3 : ∀ c ∈ w3.data, isSpace c = true) (h4 : ∀ c ∈ w4.data, isSpace c = true)
    (hdo1 : net1.Do ipRequest = (some resp1, none))
    (hb1 : resp1.Body = .ok (w1 ++ core ++ w2))
    (hdo2 : net2.Do ipRequest = (some resp2, none))
    (hb2 : resp2.Body = .ok (w3 ++ core ++ w4)) :
    getIP net1 = .ret (TrimSpace (w1 ++ core ++ w2), none) ∧
    (∃ l r : List Char,
      (w1 ++ core ++ w2).data = l ++ (TrimSpace (w1 ++ core ++ w2)).data ++ r ∧
      (∀ c ∈ l, isSpace c = true) ∧ (∀ c ∈ r, isSpace c = true)) ∧
    (∀ c, (TrimSpace (w1 ++ core ++ w2)).data.head? = some c → isSpace c = false) ∧
    (∀ c, (TrimSpace (w1 ++ core ++ w2)).data.getLast? = some c → isSpace c = false) ∧
    TrimSpace (TrimSpace (w1 ++ core ++ w2)) = TrimSpace (w1 ++ core ++ w2) ∧
    getIP net2 = getIP net1 ∧
    ∀ (cfg : Config) (lib : Lib) (recID prev : String),
      TrimSpace (w1 ++ core ++ w2) ≠ prev →
      setIP cfg lib net1 (TrimSpace (w1 ++ core ++ w2)) recID = .ret none →
      ∃ p, (loopBody cfg lib recID prev net1).2 = some p ∧
        callsSetIP (loopBody cfg lib recID p net2).1 = false := by
  have hg1 : getIP net1 = .ret (TrimSpace (w1 ++ core ++ w2), none) := by
    simp [getIP, hdo1, hb1]
  have hg2 : getIP net2 = .ret (TrimSpace (w3 ++ core ++ w4), none) := by
    simp [getIP, hdo2, hb2]
  have heq : TrimSpace (w3 ++ core ++ w4) = TrimSpace (w1 ++ core ++ w2) := by
    simp only [TrimSpace, trimSpaceChars, String.data_append]
    rw [trim_pad isSpace _ _ _ h1 h2, trim_pad isSpace _ _ _ h3 h4]
  refine ⟨hg1, ?_, ?_, ?_, ?_, ?_, ?_⟩
  · exact trim_decompose isSpace _
  · intro c hc
    exact trim_head_not isSpace _ c hc
  · intro c hc
    exact trim_last_not isSpace _ c hc
  · simp only [TrimSpace, trimSpaceChars]
    rw [trim_idem]
  · rw [hg1, hg2, heq]
  · intro cfg lib recID prev hne hset
    have hp : ¬ prev = TrimSpace (w1 ++ core ++ w2) := fun h => hne h.symm
    refine ⟨TrimSpace (w1 ++ core ++ w2), ?_, ?_⟩
    · simp [loopBody, hg1, hp, hset]
    · simp [loopBody, hg2, heq, callsSetIP, isSetIPCall]

/-- C10, at the bodies " 203.0.113.5\n" and "203.0.113.5\r\n". -/
theorem getIP_trims_surrounding_space_witness :
    (∀ c ∈ " ".data, isSpace c = true) ∧ (∀ c ∈ "\n".data, isSpace c = true) ∧
    (∀ c ∈ "".data, isSpace c = true) ∧ (∀ c ∈ "\r\n".data, isSpace c = true) ∧
    (sampleNet " 203.0.113.5\n" 200 "200 OK" "").Do ipRequest =
      (some { Status := "200 OK", StatusCode := 200, Body := .ok (" " ++ "203.0.113.5" ++ "\n") },
        none) ∧
    (sampleNet "203.0.113.5\r\n" 200 "200 OK" "").Do ipRequest =
      (some { Status := "200 OK", StatusCode := 200, Body := .ok ("" ++ "203.0.113.5" ++ "\r\n") },
        none) ∧
    TrimSpace (" " ++ "203.0.113.5" ++ "\n") = "203.0.113.5" ∧
    getIP (sampleNet "203.0.113.5\r\n" 200 "200 OK" "") =
      getIP (sampleNet " 203.0.113.5\n" 200 "200 OK" "") :=
  ⟨by decide, by decide, by decide, by decide, rfl, rfl, by decide,
    (getIP_trims_surrounding_space (sampleNet " 203.0.113.5\n" 200 "200 OK" "")
      (sampleNet "203.0.113.5\r\n" 200 "200 OK" "")
      { Status := "200 OK", StatusCode := 200, Body := .ok (" " ++ "203.0.113.5" ++ "\n") }
      { Status := "200 OK", StatusCode := 200, Body := .ok ("" ++ "203.0.113.5" ++ "\r\n") }
      "203.0.113.5" " " "\n" "" "\r\n" (by decide) (by decide) (by decide) (by decide)
      rfl rfl rfl rfl).2.2.2.2.2.1⟩

/-! ## The update body as JSON -/

theorem decodeString_plain (s rest : List Char) (hs : ∀ c ∈ s, plainChar c = true) :
    decodeString .plain (s ++ '"' :: rest) = some (s, rest) := by
  induction s with
  | nil => simp [decodeString]
  | cons c cs ih =>
    have hc := hs c (List.mem_cons_self _ _)
    simp only [plainChar, Bool.and_eq_true, bne_iff_ne, ne_eq, decide_eq_true_eq] at hc
    obtain ⟨⟨h1, h2⟩, h3⟩ := hc
    have h3' : ¬ c.toNat < 32 := by omega
    have ih' := ih (fun x hx => hs x (List.mem_cons_of_mem _ hx))
    simp [decodeString, h1, h2, h3', ih', consChar]

theorem skipWs_cons_of_not (c : Char) (cs : List Char) (h : isJSONSpace c = false) :
    skipWs (c :: cs) = c :: cs := by
  simp [skipWs, List.dropWhile_cons, h]

/-- One member whose key and value are string literals without escapes,
followed by a comma. -/
theorem parseMembers_string_member (fuel : Nat) (k v rest : List Char)
    (hk : ∀ c ∈ k, plainChar c = true) (hv : ∀ c ∈ v, plainChar c = true) :
    parseMembers (fuel + 1) ('"' :: (k ++ '"' :: ':' :: '"' :: (v ++ '"' :: ',' :: rest))) =
      match parseMembers fuel rest with
      | some (ms, r) => some ((String.mk k, .str (String.mk v)) :: ms, r)
      | none => none := by
  rw [parseMembers]
  rw [skipWs_cons_of_not _ _ (by decide)]
  simp only [if_true]
  rw [decodeString_plain k _ hk]
  simp only []
  rw [skipWs_cons_of_not _ _ (by decide)]
  simp only [if_true]
  rw [skipWs_cons_of_not _ _ (by decide)]
  simp only [parseValue, if_true]
  rw [decodeString_plain v _ hv]
  simp only []
  rw [skipWs_cons_of_not _ _ (by decide)]
  simp only [if_true]


theorem setIPBody_data (name ip : String) :
    (setIPBody name ip).data =
      '{' :: '"' :: ("type".data ++ '"' :: ':' :: '"' :: ("A".data ++ '"' :: ',' ::
        '"' :: ("name".data ++ '"' :: ':' :: '"' :: (name.data ++ '"' :: ',' ::
        '"' :: ("content".data ++ '"' :: ':' :: '"' :: (ip.data ++ '"' :: ',' ::
        "\"ttl\":120,\"proxied\":false\x7d".data)))))) := by
  simp only [setIPBody, String.data_append, List.append_assoc]
  rfl

theorem parseMembers_tail (fuel : Nat) :
    parseMembers (fuel + 2) "\"ttl\":120,\"proxied\":false\x7d".data =
      some ([("ttl", .num 120), ("proxied", .bool false)], []) := by
  rfl

theorem consChar_some (c : Char) (o : Option (List Char × List Char)) (s r : List Char)
    (h : consChar c o = some (s, r)) : ∃ s', o = some (s', r) := by
  cases o with
  | none => simp [consChar] at h
  | some sr =>
    obtain ⟨s', r'⟩ := sr
    simp only [consChar, Option.some.injEq, Prod.mk.injEq] at h
    exact ⟨s', by rw [h.2]⟩

theorem decodeString_length :
    ∀ (cs : List Char) (m : StrMode) (s r : List Char),
      decodeString m cs = some (s, r) → r.length < cs.length := by
  intro cs
  induction cs with
  | nil => intro m s r h; cases m <;> simp [decodeString] at h
  | cons c cs ih =>
    intro m s r h
    have step : ∀ (m' : StrMode) (s' : List Char), decodeString m' cs = some (s', r) →
        r.length < (c :: cs).length := by
      intro m' s' h'
      have := ih m' s' r h'
      simp only [List.length_cons]
      omega
    cases m with
    | plain =>
      rw [decodeString] at h
      split at h
      · simp only [Option.some.injEq, Prod.mk.injEq] at h
        rw [← h.2]
        simp
      · split at h
        · exact step _ _ h
        · split at h
          · simp at h
          · obtain ⟨s', hs'⟩ := consChar_some _ _ _ _ h
            exact step _ _ hs'
    | esc =>
      rw [decodeString] at h
      split at h
      · exact step _ _ h
      · split at h
        · obtain ⟨s', hs'⟩ := consChar_some _ _ _ _ h
          exact step _ _ hs'
        · simp at h
    | hex seen acc =>
      rw [decodeString] at h
      split at h
      · simp at h
      · split at h
        · split at h
          · exact step _ _ h
          · obtain ⟨s', hs'⟩ := consChar_some _ _ _ _ h
            exact step _ _ hs'
        · exact step _ _ h
    | high hi =>
      rw [decodeString] at h
      split at h
      · simp only [Option.some.injEq, Prod.mk.injEq] at h
        rw [← h.2]
        simp
      · split at h
        · exact step _ _ h
        · split at h
          · simp at h
          · obtain ⟨s1, hs1⟩ := consChar_some _ _ _ _ h
            obtain ⟨s2, hs2⟩ := consChar_some _ _ _ _ hs1
            exact step _ _ hs2
    | highEsc hi =>
      rw [decodeString] at h
      split at h
      · exact step _ _ h
      · split at h
        · obtain ⟨s1, hs1⟩ := consChar_some _ _ _ _ h
          obtain ⟨s2, hs2⟩ := consChar_some _ _ _ _ hs1
          exact step _ _ hs2
        · simp at h
    | highHex hi seen acc =>
      rw [decodeString] at h
      split at h
      · simp at h
      · split at h
        · split at h
          · obtain ⟨s1, hs1⟩ := consChar_some _ _ _ _ h
            exact step _ _ hs1
          · split at h
            · obtain ⟨s1, hs1⟩ := consChar_some _ _ _ _ h
              exact step _ _ hs1
            · obtain ⟨s1, hs1⟩ := consChar_some _ _ _ _ h
              obtain ⟨s2, hs2⟩ := consChar_some _ _ _ _ hs1
              exact step _ _ hs2
        · exact step _ _ h

theorem skipWs_length (cs : List Char) : (skipWs cs).length ≤ cs.length :=
  (List.dropWhile_sublist _).length_le

theorem parseValue_length (cs : List Char) (v : JSONValue) (r : List Char)
    (h : parseValue cs = some (v, r)) : r.length ≤ cs.length := by
  unfold parseValue at h
  split at h
  · simp at h
  · rename_i c cs'
    split at h
    · split at h
      · rename_i s r1 hd
        simp only [Option.some.injEq, Prod.mk.injEq] at h
        have := decodeString_length _ _ _ _ hd
        rw [← h.2]
        simp only [List.length_cons]
        omega
      · simp at h
    · split at h
      · simp only [Option.some.injEq, Prod.mk.injEq] at h
        rw [← h.2, List.length_drop]
        omega
      · split at h
        · simp only [Option.some.injEq, Prod.mk.injEq] at h
          rw [← h.2, List.length_drop]
          omega
        · split at h
          · simp only [Option.some.injEq, Prod.mk.injEq] at h
            rw [← h.2, List.length_drop]
            omega
          · dsimp only at h
            split at h
            · simp at h
            · simp only [Option.some.injEq, Prod.mk.injEq] at h
              rw [← h.2]
              exact (List.dropWhile_sublist _).length_le

/-- The result of `parseMembers` does not depend on the fuel once the fuel
exceeds the length of the input: the parser never stops for lack of fuel. -/
theorem parseMembers_fuel :
    ∀ (f1 f2 : Nat) (cs : List Char), cs.length < f1 → cs.length < f2 →
      parseMembers f1 cs = parseMembers f2 cs
  | 0, _, _, h, _ => by omega
  | _ + 1, 0, _, _, h => by omega
  | n + 1, m + 1, cs, h1, h2 => by
    rw [parseMembers, parseMembers]
    have hws := skipWs_length cs
    cases hcs : skipWs cs with
    | nil => rfl
    | cons q r =>
      rw [hcs] at hws
      simp only [List.length_cons] at hws
      by_cases hq : q = '"'
      · simp only [hq, if_true]
        cases hd : decodeString .plain r with
        | none => rfl
        | some kr =>
          obtain ⟨k, r1⟩ := kr
          have hr1 := decodeString_length _ _ _ _ hd
          have hws1 := skipWs_length r1
          simp only []
          cases h1s : skipWs r1 with
          | nil => rfl
          | cons col r2 =>
            rw [h1s] at hws1
            simp only [List.length_cons] at hws1
            by_cases hcol : col = ':'
            · simp only [hcol, if_true]
              have hws2 := skipWs_length r2
              cases hv : parseValue (skipWs r2) with
              | none => rfl
              | some vr =>
                obtain ⟨v, r3⟩ := vr
                have hr3 := parseValue_length _ _ _ hv
                have hws3 := skipWs_length r3
                simp only []
                cases h3s : skipWs r3 with
                | nil => rfl
                | cons sep r4 =>
                  rw [h3s] at hws3
                  simp only [List.length_cons] at hws3
                  have ih := parseMembers_fuel n m r4 (by omega) (by omega)
                  simp only [ih]
            · simp only [hcol, if_false]
      · simp only [hq, if_false]

/-- The `\u` escapes of string literals: a surrogate pair decodes to one code
point, a surrogate without its partner to U+FFFD with what follows read afresh,
and an escape cut short is an error. -/
theorem parseObject_unicode_escapes :
    parseObject "\x7b\"a\":\"\\u00e9\\u0041\"\x7d" = some [("a", .str "\u00e9A")] ∧
    parseObject "\x7b\"a\":\"\\uD83D\\uDE00\"\x7d" = some [("a", .str "😀")] ∧
    parseObject "\x7b\"a\":\"\\uD83Dx\"\x7d" = some [("a", .str "\uFFFDx")] ∧
    parseObject "\x7b\"a\":\"\\uD83D\"\x7d" = some [("a", .str "\uFFFD")] ∧
    parseObject "\x7b\"a\":\"\\uD83D\\n\"\x7d" = some [("a", .str "\uFFFD\n")] ∧
    parseObject "\x7b\"a\":\"\\uD83D\\u0041\"\x7d" = some [("a", .str "\uFFFDA")] ∧
    parseObject "\x7b\"a\":\"\\uD83D\\uD83D\\uDE00\"\x7d" =
      some [("a", .str "\uFFFD😀")] ∧
    parseObject "\x7b\"a\":\"\\uDE00\\uD83D\"\x7d" = some [("a", .str "\uFFFD\uFFFD")] ∧
    parseObject "\x7b\"a\":\"\\uD83D\\u00\"\x7d" = none := by
  refine ⟨?_, ?_, ?_, ?_, ?_, ?_, ?_, ?_, ?_⟩ <;> decide

/-! ## The update body as bytes -/

theorem DecodeRune_encode (r : Nat) (rest : List Nat)
    (hv : r < 0xd800 ∨ (0xdfff < r ∧ r < 0x110000)) :
    DecodeRune (EncodeRune r ++ rest) = (r, (EncodeRune r).length) := by
  unfold EncodeRune
  by_cases h1 : r < 0x80
  · rw [if_pos h1]
    show DecodeRune (r :: rest) = (r, 1)
    unfold DecodeRune
    simp only []
    rw [if_pos h1]
  · rw [if_neg h1]
    by_cases h2 : r < 0x800
    · rw [if_pos h2]
      show DecodeRune ((0xc0 + r / 64) :: (0x80 + r % 64) :: rest) = (r, 2)
      unfold DecodeRune
      simp only []
      rw [if_neg (by omega), if_neg (by omega), if_pos (by omega), if_pos (by omega)]
      simp only [Prod.mk.injEq, and_true]
      omega
    · rw [if_neg h2, if_neg (by omega)]
      by_cases h3 : r < 0x10000
      · rw [if_pos h3]
        show DecodeRune ((0xe0 + r / 4096) :: (0x80 + r / 64 % 64) :: (0x80 + r % 64) :: rest) =
          (r, 3)
        unfold DecodeRune
        simp only []
        rw [if_neg (by omega), if_neg (by omega), if_neg (by omega), if_pos (by omega),
          if_pos (by unfold acceptLo acceptHi; split_ifs <;> omega)]
        simp only [Prod.mk.injEq, and_true]
        omega
      · rw [if_neg h3]
        show DecodeRune ((0xf0 + r / 262144) :: (0x80 + r / 4096 % 64) ::
          (0x80 + r / 64 % 64) :: (0x80 + r % 64) :: rest) = (r, 4)
        unfold DecodeRune
        simp only []
        rw [if_neg (by omega), if_neg (by omega), if_neg (by omega), if_neg (by omega),
          if_pos (by omega), if_pos (by unfold acceptLo acceptHi; split_ifs <;> omega)]
        simp only [Prod.mk.injEq, and_true]
        omega

theorem EncodeRune_cons (r : Nat) : ∃ b t, EncodeRune r = b :: t := by
  unfold EncodeRune
  split_ifs <;> exact ⟨_, _, rfl⟩

theorem runesOfBytes_skip (t rest : List Nat) :
    runesOfBytes t.length (t ++ rest) = runesOfBytes 0 rest := by
  induction t with
  | nil => rfl
  | cons a t ih =>
    cases rest with
    | nil => simpa [runesOfBytes] using ih
    | cons x xs => simpa [runesOfBytes] using ih

theorem runesOfBytes_encode (c : Char) (rest : List Nat) :
    runesOfBytes 0 (EncodeRune c.toNat ++ rest) = c :: runesOfBytes 0 rest := by
  have hv : c.toNat < 0xd800 ∨ (0xdfff < c.toNat ∧ c.toNat < 0x110000) := c.valid
  have hc : Char.ofNat c.toNat = c := Char.ofNat_toNat c
  have hd := DecodeRune_encode c.toNat rest hv
  obtain ⟨b, t, hbt⟩ := EncodeRune_cons c.toNat
  rw [hbt] at hd ⊢
  rw [List.cons_append, runesOfBytes, ← List.cons_append, hd]
  simp only [List.length_cons, Nat.add_sub_cancel, hc]
  rw [runesOfBytes_skip]

theorem runesOfBytes_goBytes (cs : List Char) (rest : List Nat) :
    runesOfBytes 0 (cs.flatMap (fun c => EncodeRune c.toNat) ++ rest) =
      cs ++ runesOfBytes 0 rest := by
  induction cs with
  | nil => simp
  | cons c cs ih =>
    rw [List.flatMap_cons, List.append_assoc, runesOfBytes_encode, ih, List.cons_append]

/-- Reading the bytes of a text gives back the text. -/
theorem runesOfBytes_text (s : String) : runesOfBytes 0 (goBytes s) = s.data := by
  have h := runesOfBytes_goBytes s.data []
  simpa [goBytes, runesOfBytes] using h

theorem goBytes_append (s t : String) : goBytes (s ++ t) = goBytes s ++ goBytes t := by
  simp [goBytes, String.data_append, List.flatMap_append]

/-- On texts, the byte-level body is the bytes of the body. -/
theorem setIPBodyBytes_text (name ip : String) :
    setIPBodyBytes (goBytes name) (goBytes ip) = goBytes (setIPBody name ip) := by
  simp only [setIPBodyBytes, setIPBody, goBytes_append]

/-- Decoding the bytes of a text is decoding the text. -/
theorem parseObjectBytes_text (s : String) : parseObjectBytes (goBytes s) = parseObject s := by
  simp only [parseObjectBytes, runesOfBytes_text]

/-- The body built from two texts without a double quote, a backslash or a
control character decodes to the five fields. -/
theorem parseObject_setIPBody (name ip : String)
    (hn : ∀ c ∈ name.data, plainChar c = true) (hi : ∀ c ∈ ip.data, plainChar c = true) :
    parseObject (setIPBody name ip) =
      some [("type", .str "A"), ("name", .str name), ("content", .str ip),
        ("ttl", .num 120), ("proxied", .bool false)] := by
  have e1 : "\x7b\"type\":\"A\",\"name\":\"".length = 20 := rfl
  obtain ⟨f, hf⟩ : ∃ f, (setIPBody name ip).length = f + 5 :=
    ⟨(setIPBody name ip).length - 5, by simp [setIPBody, String.length_append, e1]; omega⟩
  rw [parseObject, hf, setIPBody_data]
  rw [skipWs_cons_of_not _ _ (by decide)]
  simp only [if_true]
  rw [skipWs_cons_of_not _ _ (by decide)]
  simp only [if_neg (by decide : ¬ '"' = '}')]
  rw [parseMembers_string_member _ _ _ _ (by decide) (by decide)]
  rw [parseMembers_string_member _ _ _ _ (by decide) hn]
  rw [parseMembers_string_member _ _ _ _ (by decide) hi]
  rw [parseMembers_tail]
  simp [skipWs]

/-- C6 as stated fails: with a double quote or a raw control character in the IP
string the body built by `setIP` is not a JSON object at all, with a backslash
it decodes to a content other than the IP, and with a byte that is not valid
UTF-8 (the IP is the bytes of "1.2.3." followed by 0xff) it decodes to a content
whose bytes are not those of the IP. -/
theorem setIPBody_not_decoded_back :
    setIPBody "home.example.com" "a\"b" =
      "\x7b\"type\":\"A\",\"name\":\"home.example.com\",\"content\":\"a\"b\",\"ttl\":120,\"proxied\":false\x7d" ∧
    parseObject (setIPBody "home.example.com" "a\"b") = none ∧
    parseObject (setIPBody "home.example.com" "a\tb") = none ∧
    parseObject (setIPBody "home.example.com" "a\\nb") =
      some [("type", .str "A"), ("name", .str "home.example.com"), ("content", .str "a\nb"),
        ("ttl", .num 120), ("proxied", .bool false)] ∧
    ¬ (∀ name ip : String, parseObject (setIPBody name ip) =
      some [("type", .str "A"), ("name", .str name), ("content", .str ip),
        ("ttl", .num 120), ("proxied", .bool false)]) ∧
    parseObjectBytes (setIPBodyBytes (goBytes "home.example.com")
        [0x31, 0x2e, 0x32, 0x2e, 0x33, 0x2e, 0xff]) =
      some [("type", .str "A"), ("name", .str "home.example.com"),
        ("content", .str "1.2.3.\uFFFD"), ("ttl", .num 120), ("proxied", .bool false)] ∧
    goBytes "1.2.3.\uFFFD" = [0x31, 0x2e, 0x32, 0x2e, 0x33, 0x2e, 0xef, 0xbf, 0xbd] ∧
    goBytes "1.2.3.\uFFFD" ≠ [0x31, 0x2e, 0x32, 0x2e, 0x33, 0x2e, 0xff] := by
  refine ⟨by decide, by decide, by decide, by decide, ?_, by decide, by decide, by decide⟩
  intro h
  have h1 := h "home.example.com" "a\"b"
  have h2 : parseObject (setIPBody "home.example.com" "a\"b") = none := by decide
  rw [h2] at h1
  cases h1

/-- C6, amended: for every record name and every IP string that are valid UTF-8
texts made of characters that stand for themselves in a JSON string literal (no
double quote, no backslash, no control character below U+0020), the body built
by `setIP` decodes as a JSON object with exactly the fields type = "A", name =
the record name, content = the IP, ttl = 120 and proxied = false.  This holds of
the body as a text, and of the body as the bytes of the Go string built from
the bytes of the record name and of the IP. -/
theorem setIPBody_decodes (name ip : String)
    (hn : ∀ c ∈ name.data, plainChar c = true) (hi : ∀ c ∈ ip.data, plainChar c = true) :
    parseObject (setIPBody name ip) =
      some [("type", .str "A"), ("name", .str name), ("content", .str ip),
        ("ttl", .num 120), ("proxied", .bool false)] ∧
    parseObjectBytes (setIPBodyBytes (goBytes name) (goBytes ip)) =
      some [("type", .str "A"), ("name", .str name), ("content", .str ip),
        ("ttl", .num 120), ("proxied", .bool false)] := by
  have h := parseObject_setIPBody name ip hn hi
  refine ⟨h, ?_⟩
  rw [setIPBodyBytes_text, parseObjectBytes_text, h]

/-- C6, at the record name "home.example.com" and the IP "203.0.113.5". -/
theorem setIPBody_decodes_witness :
    (∀ c ∈ "home.example.com".data, plainChar c = true) ∧
    (∀ c ∈ "203.0.113.5".data, plainChar c = true) ∧
    parseObject (setIPBody "home.example.com" "203.0.113.5") =
      some [("type", .str "A"), ("name", .str "home.example.com"),
        ("content", .str "203.0.113.5"), ("ttl", .num 120), ("proxied", .bool false)] ∧
    parseObjectBytes (setIPBodyBytes (goBytes "home.example.com") (goBytes "203.0.113.5")) =
      some [("type", .str "A"), ("name", .str "home.example.com"),
        ("content", .str "203.0.113.5"), ("ttl", .num 120), ("proxied", .bool false)] :=
  ⟨by decide, by decide,
    setIPBody_decodes "home.example.com" "203.0.113.5" (by decide) (by decide)⟩

end DDNS
